import Mathlib

set_option autoImplicit false

/-!
Shallow embedding of the `@devvir/service` lifecycle package
(`lifecycle.ts`, `shutdown.ts`, `healthcheck.ts`).

Conventions of the embedding:
* JavaScript exceptions are modelled with `Except String`; an async callback
  supplied in the configuration is modelled by the result of awaiting it
  (`Except.ok` for a normal return, `Except.error` for a rejection).
* JS objects are modelled as insertion-ordered association lists
  (`List (String × Value)`); property lookup takes the first binding.
  A key whose value is `undefined` (as the `dependencies: ... ? deps : undefined`
  branch produces) is modelled by omitting the key, matching the JSON body
  `JSON.stringify` serialises for the health endpoint.
* `Date.now()` is a `Nat` parameter `now`.
* Side effects that the claims talk about (event emissions, callback
  invocations, server close, `process.exit`) are recorded in a trace of `Ev`
  values; the model is sequential, so trace order is execution order.
-/

namespace Service

/-- A JSON-like runtime value, standing in for the dynamic values a
`HealthState` object can hold. -/
inductive Value where
  | bool (b : Bool)
  | nat (n : Nat)
  | str (s : String)
  | obj (fields : List (String × Value))

/-- Fields of a JS object, in insertion order. -/
abbrev Fields := List (String × Value)

/-- JS property lookup on the objects the model builds: first binding wins. -/
def lookupKV (k : String) : Fields → Option Value
  | [] => none
  | (k', v) :: rest => if k' = k then some v else lookupKV k rest

/-- Whether a key occurs among an object's fields. -/
def hasKey (k : String) (l : Fields) : Bool :=
  (lookupKV k l).isSome

/-- JS object-literal spread `{...base, ...custom}` (as in the return value of
`getHealthState`): keys of `base` keep their position but take `custom`'s value
when `custom` also binds them, and the remaining keys of `custom` are appended
in order. -/
def jsSpread (base custom : Fields) : Fields :=
  base.map (fun p => (p.1, (lookupKV p.1 custom).getD p.2)) ++
    custom.filter (fun p => ! hasKey p.1 base)

/-- `Map.prototype.set`: update the value in place when the key is present,
append the binding otherwise. -/
def mapSet (m : List (String × Bool)) (k : String) (v : Bool) : List (String × Bool) :=
  match m with
  | [] => [(k, v)]
  | (k', v') :: rest => if k' = k then (k, v) :: rest else (k', v') :: mapSet rest k v

/-- The `dependencyHealth` map built at `defineLifecycle` time: one `set dep false`
per entry of `config.dependencies` (lifecycle.ts lines 85-92). -/
def buildDeps : Option (List String) → List (String × Bool)
  | none => []
  | some names => names.foldl (fun m dep => mapSet m dep false) []

/-- `LifecycleConfig` (lifecycle.ts lines 27-34), with each optional async
callback modelled by the result of awaiting it.  `onFailure` receives the
initialization error, so it is a function of the error message. -/
structure LifecycleConfig where
  onInit : Option (Except String Unit) := none
  onPing : Option (Except String Fields) := none
  isHealthy : Option (Except String Bool) := none
  onFailure : Option (String → Except String Unit) := none
  onShutdown : Option (Except String Unit) := none
  dependencies : Option (List String) := none

/-- The mutable closure state of a lifecycle instance: the `dependencyHealth`
map and whether `healthCheckService` has been assigned (non-null). -/
structure Ctrl where
  dependencyHealth : List (String × Bool)
  healthCheckService : Bool

/-- The state a freshly constructed lifecycle instance closes over. -/
def initialCtrl (cfg : LifecycleConfig) : Ctrl :=
  { dependencyHealth := buildDeps cfg.dependencies, healthCheckService := false }

/-- `defineLifecycle` (lifecycle.ts lines 83-94).  The construction code is a
plain loop of `Map.set` calls and cannot throw; the `Except` result records
that it always completes normally (relevant to the claim that duplicate
dependency names fail with a `ConfigurationError`). -/
def defineLifecycle (cfg : LifecycleConfig) : Except String Ctrl :=
  .ok (initialCtrl cfg)

/-- The extra-fields mapping obtained from `onPing` (lifecycle.ts line 100):
`config.onPing ? await config.onPing() : {}`. -/
def pingResult (cfg : LifecycleConfig) : Except String Fields :=
  match cfg.onPing with
  | some p => p
  | none => .ok []

/-- The `healthy` computation (lifecycle.ts lines 104-106): the custom
`isHealthy` when configured, otherwise the conjunction of the dependency
flags. -/
def computedHealthy (cfg : LifecycleConfig) (st : Ctrl) : Except String Bool :=
  match cfg.isHealthy with
  | some h => h
  | none => .ok (st.dependencyHealth.all (fun p => p.2))

/-- The built-in fields of the returned object literal (lifecycle.ts lines
108-112): `healthy`, `timestamp`, and — only when the dependency map is
non-empty — `dependencies` (an `undefined` value is omitted, as in the
serialised body). -/
def baseFields (st : Ctrl) (now : Nat) (healthy : Bool) : Fields :=
  [("healthy", Value.bool healthy), ("timestamp", Value.nat now)] ++
    (if st.dependencyHealth.isEmpty then []
     else [("dependencies",
            Value.obj (st.dependencyHealth.map fun p => (p.1, Value.bool p.2)))])

/-- `getHealthState` (lifecycle.ts lines 99-114): await `onPing` (a rejection
propagates), compute `healthy` (a rejection propagates), and return
`{healthy, timestamp, dependencies?, ...customState}`. -/
def getHealthState (cfg : LifecycleConfig) (st : Ctrl) (now : Nat) :
    Except String Fields :=
  match pingResult cfg with
  | .error e => .error e
  | .ok customState =>
    match computedHealthy cfg st with
    | .error e => .error e
    | .ok healthy => .ok (jsSpread (baseFields st now healthy) customState)

/-! ### Observable events and the lifecycle state machine -/

/-- Observable side effects of the lifecycle, in execution order. -/
inductive Ev where
  | emitInit
  | emitReady
  | emitFailure (e : String)
  | emitDone
  | onInitCalled
  | depsMarked
  | serverStarted
  | handlersRegistered
  | closeStarted
  | closeFinished
  | onShutdownCalled
  | onShutdownFinished
  | onFailureCalled (e : String)
  | logError (e : String)
  | processExit (code : Nat)
  deriving DecidableEq, Repr

/-- Listeners registered on the event bus for the four lifecycle events; each
is modelled by the result of its synchronous invocation (`EventEmitter` does
not catch listener exceptions).  `failure` listeners receive the error. -/
structure Listeners where
  initListeners : List (Except String Unit) := []
  readyListeners : List (Except String Unit) := []
  failureListeners : List (String → Except String Unit) := []
  doneListeners : List (Except String Unit) := []

/-- Synchronous fan-out of `emit` for a payload-free event: listeners run in
registration order, and the first exception propagates to the `emit` caller. -/
def runAll : List (Except String Unit) → Except String Unit
  | [] => .ok ()
  | l :: rest =>
    match l with
    | .error e => .error e
    | .ok () => runAll rest

/-- Synchronous fan-out of `emit('failure', e)`. -/
def runAllWith (e : String) : List (String → Except String Unit) → Except String Unit
  | [] => .ok ()
  | l :: rest =>
    match l e with
    | .error e' => .error e'
    | .ok () => runAllWith e rest

/-- Tail of `shutdown` after the `onShutdown` step: `emitter.emit('done')`
followed by `process.exit(0)` (lifecycle.ts lines 158-159).  A throwing `done`
listener propagates out of `emit` and prevents the exit. -/
def shutdownDone (L : Listeners) (st : Ctrl) (tr : List Ev) :
    Ctrl × List Ev × Except String Unit :=
  match runAll L.doneListeners with
  | .error e => (st, tr ++ [Ev.emitDone], .error e)
  | .ok () => (st, tr ++ [Ev.emitDone, Ev.processExit 0], .ok ())

/-- Tail of `shutdown` after the close step: `if (config.onShutdown) await
config.onShutdown()` (lifecycle.ts lines 154-156), then the done/exit tail.
A rejection propagates to the caller of `shutdown`. -/
def shutdownRest (cfg : LifecycleConfig) (L : Listeners) (st : Ctrl) (tr1 : List Ev) :
    Ctrl × List Ev × Except String Unit :=
  match cfg.onShutdown with
  | none => shutdownDone L st tr1
  | some (.ok ()) => shutdownDone L st (tr1 ++ [Ev.onShutdownCalled, Ev.onShutdownFinished])
  | some (.error e) => (st, tr1 ++ [Ev.onShutdownCalled], .error e)

/-- `shutdown` (lifecycle.ts lines 147-160): close the health server when it
was started (awaiting the close, whose outcome is the collaborator-supplied
`closeRes`), await `onShutdown` when configured, emit `done`, and call
`process.exit(0)`.  The body contains no try/catch: a rejection at any await
propagates to the caller and skips the remaining steps. -/
def runShutdown (cfg : LifecycleConfig) (L : Listeners) (closeRes : Except String Unit)
    (st : Ctrl) : Ctrl × List Ev × Except String Unit :=
  match st.healthCheckService, closeRes with
  | true, .error e => (st, [Ev.closeStarted], .error e)
  | true, .ok () => shutdownRest cfg L st [Ev.closeStarted, Ev.closeFinished]
  | false, _ => shutdownRest cfg L st []

/-- The handler `setupShutdownHandlers` (shutdown.ts lines 30-47) installs for
SIGTERM/SIGINT, with the lifecycle's `shutdown` as its callback: it awaits the
callback inside a try/catch, logs any error, and calls `process.exit(0)`
unconditionally.  When `shutdown` itself succeeds it has already exited the
process, so the handler's own exit line is not reached. -/
def runSignalHandler (cfg : LifecycleConfig) (L : Listeners) (closeRes : Except String Unit)
    (st : Ctrl) : Ctrl × List Ev :=
  match runShutdown cfg L closeRes st with
  | (st', tr, .ok ()) => (st', tr)
  | (st', tr, .error e) => (st', tr ++ [Ev.logError e, Ev.processExit 0])

/-- Result of the `if (config.onInit) await config.onInit()` step. -/
def onInitResult (cfg : LifecycleConfig) : Except String Unit :=
  match cfg.onInit with
  | none => .ok ()
  | some r => r

/-- The try-block of `init` (lifecycle.ts lines 167-185): emit `init`, await
`onInit` when configured, flip every dependency flag to true, start the health
server, register the shutdown handlers, and emit `ready`. -/
def initBody (cfg : LifecycleConfig) (L : Listeners) (st : Ctrl) :
    Ctrl × List Ev × Except String Unit :=
  match runAll L.initListeners with
  | .error e => (st, [Ev.emitInit], .error e)
  | .ok () =>
    let onInitTrace : List Ev :=
      match cfg.onInit with
      | none => []
      | some _ => [Ev.onInitCalled]
    match onInitResult cfg with
    | .error e => (st, Ev.emitInit :: onInitTrace, .error e)
    | .ok () =>
      let st' : Ctrl :=
        { dependencyHealth := st.dependencyHealth.map (fun p => (p.1, true)),
          healthCheckService := true }
      let tr := Ev.emitInit :: onInitTrace ++
        [Ev.depsMarked, Ev.serverStarted, Ev.handlersRegistered, Ev.emitReady]
      match runAll L.readyListeners with
      | .error e => (st', tr, .error e)
      | .ok () => (st', tr, .ok ())

/-- The catch-block of `init` (lifecycle.ts lines 186-192): emit `failure`
with the caught error, await `onFailure` when configured (its own rejection,
like a throwing `failure` listener, propagates uncaught), and re-throw the
original error. -/
def catchFailure (cfg : LifecycleConfig) (L : Listeners) (st' : Ctrl)
    (tr : List Ev) (e : String) : Ctrl × List Ev × Except String Unit :=
  let tr := tr ++ [Ev.emitFailure e]
  match runAllWith e L.failureListeners with
  | .error e2 => (st', tr, .error e2)
  | .ok () =>
    match cfg.onFailure with
    | none => (st', tr, .error e)
    | some f =>
      let tr := tr ++ [Ev.onFailureCalled e]
      match f e with
      | .error e2 => (st', tr, .error e2)
      | .ok () => (st', tr, .error e)

/-- `init` (lifecycle.ts lines 166-193): run the try-block; on any exception,
run the catch-block. -/
def runInit (cfg : LifecycleConfig) (L : Listeners) (st : Ctrl) :
    Ctrl × List Ev × Except String Unit :=
  match initBody cfg L st with
  | (st', tr, .ok ()) => (st', tr, .ok ())
  | (st', tr, .error e) => catchFailure cfg L st' tr e

/-- JS truthiness of a property lookup, as `state.healthy ? 200 : 503`
evaluates it. -/
def jsTruthy : Option Value → Bool
  | none => false
  | some (Value.bool b) => b
  | some (Value.nat n) => n != 0
  | some (Value.str s) => s != ""
  | some (Value.obj _) => true

/-- The request handler built by `createHealthCheckCallback` (lifecycle.ts
lines 120-141), applied to the settled outcome of `getHealthState()` and the
request URL.  It returns the HTTP status and JSON body it writes, plus the log
trace; a rejected health computation is caught by the `.catch` branch and
answered with 503 and an error-shaped body. -/
def healthCheckCallback (healthResult : Except String Fields) (url : String) :
    (Nat × Fields) × List Ev :=
  if url = "/health" then
    match healthResult with
    | .ok state =>
      ((if jsTruthy (lookupKV "healthy" state) then 200 else 503, state), [])
    | .error e =>
      ((503, [("healthy", Value.bool false),
              ("error", Value.str "Failed to get health state")]),
       [Ev.logError e])
  else
    ((404, []), [])

/-! ### Concrete fixtures and auxiliary predicates -/

/-- A controller state with no declared dependencies and no started server. -/
def stEmpty : Ctrl :=
  { dependencyHealth := [], healthCheckService := false }

/-- A controller state with no declared dependencies whose health server has
been started. -/
def stStarted : Ctrl :=
  { dependencyHealth := [], healthCheckService := true }

/-- In a trace, every occurrence of `b` is preceded by an occurrence of `a`. -/
def eventBefore (a b : Ev) (tr : List Ev) : Prop :=
  ∀ n : Nat, tr[n]? = some b → ∃ m : Nat, m < n ∧ tr[m]? = some a

/-- The close and `onShutdown` steps of a shutdown run raise no error: the
collaborator close succeeds whenever the server was started, and the
configured `onShutdown` (if any) succeeds. -/
def shutdownStepsOk (cfg : LifecycleConfig) (closeRes : Except String Unit) (st : Ctrl) : Prop :=
  (st.healthCheckService = true → closeRes = Except.ok ()) ∧
  (∀ r, cfg.onShutdown = some r → r = Except.ok ())


/-! ### Lookup lemmas for the spread semantics -/

theorem lookupKV_append (k : String) (l1 l2 : Fields) :
    lookupKV k (l1 ++ l2) =
      match lookupKV k l1 with
      | some v => some v
      | none => lookupKV k l2 := by
  induction l1 with
  | nil => simp [lookupKV]
  | cons p rest ih =>
    by_cases h : p.1 = k
    · simp [lookupKV, h]
    · simp [lookupKV, h, ih]

theorem lookupKV_map_override (k : String) (base custom : Fields) :
    lookupKV k (base.map (fun p => (p.1, (lookupKV p.1 custom).getD p.2))) =
      match lookupKV k base with
      | some v => some ((lookupKV k custom).getD v)
      | none => none := by
  induction base with
  | nil => simp [lookupKV]
  | cons p rest ih =>
    by_cases h : p.1 = k
    · subst h
      simp [lookupKV]
    · simp [lookupKV, h, ih]

theorem lookupKV_filter_new (k : String) (custom base : Fields)
    (h : lookupKV k base = none) :
    lookupKV k (custom.filter (fun p => ! hasKey p.1 base)) = lookupKV k custom := by
  induction custom with
  | nil => simp
  | cons p rest ih =>
    by_cases hk : p.1 = k
    · subst hk
      have hb : hasKey p.1 base = false := by simp [hasKey, h]
      simp [hb, lookupKV]
    · by_cases hkeep : hasKey p.1 base
      · simp [hkeep, lookupKV, hk, ih]
      · simp [hkeep, lookupKV, hk, ih]

theorem lookupKV_jsSpread (k : String) (base custom : Fields) :
    lookupKV k (jsSpread base custom) =
      match lookupKV k base with
      | some v => some ((lookupKV k custom).getD v)
      | none => lookupKV k custom := by
  unfold jsSpread
  rw [lookupKV_append, lookupKV_map_override]
  cases h : lookupKV k base with
  | some v => simp
  | none => simp [lookupKV_filter_new k custom base h]

theorem lookupKV_baseFields_healthy (st : Ctrl) (now : Nat) (b : Bool) :
    lookupKV "healthy" (baseFields st now b) = some (Value.bool b) := by
  simp [baseFields, lookupKV]

theorem lookupKV_baseFields_timestamp (st : Ctrl) (now : Nat) (b : Bool) :
    lookupKV "timestamp" (baseFields st now b) = some (Value.nat now) := by
  simp [baseFields, lookupKV]

theorem lookupKV_baseFields_deps (st : Ctrl) (now : Nat) (b : Bool) :
    lookupKV "dependencies" (baseFields st now b) =
      (if st.dependencyHealth.isEmpty then none
       else some (Value.obj (st.dependencyHealth.map fun p => (p.1, Value.bool p.2)))) := by
  by_cases h : st.dependencyHealth.isEmpty <;> simp [baseFields, lookupKV, h]

/-! ### Registry lemmas -/

theorem mapSet_keys (m : List (String × Bool)) (k : String) (v : Bool) :
    (mapSet m k v).map Prod.fst =
      if k ∈ m.map Prod.fst then m.map Prod.fst else m.map Prod.fst ++ [k] := by
  induction m with
  | nil => simp [mapSet]
  | cons p rest ih =>
    by_cases h : p.1 = k
    · subst h
      simp [mapSet]
    · have hne : k ≠ p.1 := fun hk => h hk.symm
      by_cases hmem : k ∈ rest.map Prod.fst
      · simp [mapSet, h, ih, hmem, hne]
      · simp [mapSet, h, ih, hmem, hne]

theorem mapSet_keys_nodup (m : List (String × Bool)) (k : String) (v : Bool)
    (h : (m.map Prod.fst).Nodup) : ((mapSet m k v).map Prod.fst).Nodup := by
  rw [mapSet_keys]
  by_cases hmem : k ∈ m.map Prod.fst
  · simpa [hmem] using h
  · simp only [hmem, if_false]
    rw [List.nodup_append]
    refine ⟨h, List.nodup_singleton k, fun a ha hak => ?_⟩
    rw [List.mem_singleton] at hak
    subst hak
    exact hmem ha

theorem mapSet_mem_keys (m : List (String × Bool)) (k v k') :
    k' ∈ (mapSet m k v).map Prod.fst ↔ k' ∈ m.map Prod.fst ∨ k' = k := by
  rw [mapSet_keys]
  by_cases hmem : k ∈ m.map Prod.fst
  · simp only [hmem, if_true]
    constructor
    · exact fun h => Or.inl h
    · rintro (h | rfl)
      · exact h
      · exact hmem
  · simp [hmem]

theorem mapSet_false_values (m : List (String × Bool)) (k : String) :
    (∀ p ∈ m, p.2 = false) → ∀ p ∈ mapSet m k false, p.2 = false := by
  induction m with
  | nil =>
    intro _ p hp
    simp only [mapSet, List.mem_singleton] at hp
    subst hp
    rfl
  | cons q rest ih =>
    intro h p hp
    by_cases hq : q.1 = k
    · simp only [mapSet, hq, if_true] at hp
      rcases List.mem_cons.mp hp with hpe | hp'
      · subst hpe
        rfl
      · exact h p (List.mem_cons_of_mem q hp')
    · simp only [mapSet, hq, if_false] at hp
      rcases List.mem_cons.mp hp with hpe | hp'
      · subst hpe
        exact h q (List.mem_cons_self q rest)
      · exact ih (fun r hr => h r (List.mem_cons_of_mem q hr)) p hp'

theorem foldl_mapSet_false (names : List String) (m : List (String × Bool))
    (hm : ∀ p ∈ m, p.2 = false) :
    ∀ p ∈ names.foldl (fun m dep => mapSet m dep false) m, p.2 = false := by
  induction names generalizing m with
  | nil => simpa using hm
  | cons d rest ih =>
    simpa [List.foldl_cons] using ih (mapSet m d false) (mapSet_false_values m d hm)

theorem buildDeps_false (d : Option (List String)) :
    ∀ p ∈ buildDeps d, p.2 = false := by
  cases d with
  | none => simp [buildDeps]
  | some names => exact foldl_mapSet_false names [] (by simp)

theorem foldl_mapSet_keys (names : List String) (m : List (String × Bool))
    (hm : (m.map Prod.fst).Nodup) :
    (((names.foldl (fun m dep => mapSet m dep false) m).map Prod.fst).Nodup ∧
     ∀ k, k ∈ (names.foldl (fun m dep => mapSet m dep false) m).map Prod.fst ↔
       k ∈ m.map Prod.fst ∨ k ∈ names) := by
  induction names generalizing m with
  | nil => simpa using hm
  | cons d rest ih =>
    obtain ⟨h1, h2⟩ := ih (mapSet m d false) (mapSet_keys_nodup m d false hm)
    refine ⟨by simpa [List.foldl_cons] using h1, fun k => ?_⟩
    rw [List.foldl_cons, h2 k, mapSet_mem_keys]
    simp only [List.mem_cons]
    tauto

theorem mapSet_of_not_mem (m : List (String × Bool)) (k : String) (v : Bool)
    (h : k ∉ m.map Prod.fst) : mapSet m k v = m ++ [(k, v)] := by
  induction m with
  | nil => simp [mapSet]
  | cons q rest ih =>
    simp only [List.map_cons, List.mem_cons] at h
    push_neg at h
    have hqk : q.1 ≠ k := fun hq => h.1 hq.symm
    simp [mapSet, hqk, ih h.2]

theorem foldl_mapSet_nodup_eq (names : List String) (m : List (String × Bool))
    (hnd : names.Nodup) (hdisj : ∀ n ∈ names, n ∉ m.map Prod.fst) :
    names.foldl (fun m dep => mapSet m dep false) m =
      m ++ names.map (fun n => (n, false)) := by
  induction names generalizing m with
  | nil => simp
  | cons d rest ih =>
    rw [List.foldl_cons,
        mapSet_of_not_mem m d false (hdisj d (List.mem_cons_self d rest)),
        ih (m ++ [(d, false)]) (List.Nodup.of_cons hnd)]
    · simp
    · intro n hn
      simp only [List.map_append, List.mem_append]
      rintro (h | h)
      · exact hdisj n (List.mem_cons_of_mem d hn) h
      · simp only [List.map_cons, List.map_nil, List.mem_singleton] at h
        subst h
        exact (List.nodup_cons.mp hnd).1 hn

theorem buildDeps_nodup_eq (names : List String) (hnd : names.Nodup) :
    buildDeps (some names) = names.map (fun n => (n, false)) := by
  simpa [buildDeps] using foldl_mapSet_nodup_eq names [] hnd (by simp)

/-! ### State lemmas for the init and shutdown sequences -/

theorem initBody_state (cfg : LifecycleConfig) (L : Listeners) (st st' : Ctrl)
    (tr : List Ev) (r : Except String Unit) (h : initBody cfg L st = (st', tr, r)) :
    st' = st ∨
      st' = { dependencyHealth := st.dependencyHealth.map (fun p => (p.1, true)),
              healthCheckService := true } := by
  unfold initBody at h
  cases hIL : runAll L.initListeners with
  | error e =>
    rw [hIL] at h
    exact Or.inl (congrArg Prod.fst h).symm
  | ok u =>
    cases u
    rw [hIL] at h
    cases hOI : onInitResult cfg with
    | error e =>
      rw [hOI] at h
      exact Or.inl (congrArg Prod.fst h).symm
    | ok u =>
      cases u
      rw [hOI] at h
      cases hRL : runAll L.readyListeners with
      | error e =>
        rw [hRL] at h
        exact Or.inr (congrArg Prod.fst h).symm
      | ok u =>
        cases u
        rw [hRL] at h
        exact Or.inr (congrArg Prod.fst h).symm

theorem initBody_ok_state (cfg : LifecycleConfig) (L : Listeners) (st st' : Ctrl)
    (tr : List Ev) (h : initBody cfg L st = (st', tr, .ok ())) :
    st' = { dependencyHealth := st.dependencyHealth.map (fun p => (p.1, true)),
            healthCheckService := true } := by
  unfold initBody at h
  cases hIL : runAll L.initListeners with
  | error e =>
    rw [hIL] at h
    exact absurd (congrArg (fun q => q.2.2) h) (by simp)
  | ok u =>
    cases u
    rw [hIL] at h
    cases hOI : onInitResult cfg with
    | error e =>
      rw [hOI] at h
      exact absurd (congrArg (fun q => q.2.2) h) (by simp)
    | ok u =>
      cases u
      rw [hOI] at h
      cases hRL : runAll L.readyListeners with
      | error e =>
        rw [hRL] at h
        exact absurd (congrArg (fun q => q.2.2) h) (by simp)
      | ok u =>
        cases u
        rw [hRL] at h
        exact (congrArg Prod.fst h).symm

theorem catchFailure_fst (cfg : LifecycleConfig) (L : Listeners) (st' : Ctrl)
    (tr : List Ev) (e : String) : (catchFailure cfg L st' tr e).1 = st' := by
  unfold catchFailure
  split
  · rfl
  · split
    · rfl
    · split
      · rfl
      · rfl

theorem catchFailure_err (cfg : LifecycleConfig) (L : Listeners) (st' : Ctrl)
    (tr : List Ev) (e : String) :
    ∃ e2, (catchFailure cfg L st' tr e).2.2 = Except.error e2 := by
  unfold catchFailure
  split
  · exact ⟨_, rfl⟩
  · split
    · exact ⟨_, rfl⟩
    · split
      · exact ⟨_, rfl⟩
      · exact ⟨_, rfl⟩

theorem runInit_state (cfg : LifecycleConfig) (L : Listeners) (st : Ctrl) :
    (runInit cfg L st).1 = st ∨
      (runInit cfg L st).1 =
        { dependencyHealth := st.dependencyHealth.map (fun p => (p.1, true)),
          healthCheckService := true } := by
  unfold runInit
  split
  next st1 tr1 heq => simpa using initBody_state cfg L st st1 tr1 _ heq
  next st1 tr1 e heq =>
    rw [catchFailure_fst]
    exact initBody_state cfg L st st1 tr1 _ heq

theorem runInit_ok_state (cfg : LifecycleConfig) (L : Listeners) (st st' : Ctrl)
    (tr : List Ev) (h : runInit cfg L st = (st', tr, Except.ok ())) :
    st' = { dependencyHealth := st.dependencyHealth.map (fun p => (p.1, true)),
            healthCheckService := true } := by
  unfold runInit at h
  split at h
  next st1 tr1 heq =>
    injection h with h1 h2
    subst h1
    exact initBody_ok_state cfg L st _ tr1 heq
  next st1 tr1 e heq =>
    exfalso
    obtain ⟨e2, he2⟩ := catchFailure_err cfg L st1 tr1 e
    rw [h] at he2
    simp at he2

theorem shutdownDone_fst (L : Listeners) (st : Ctrl) (tr : List Ev) :
    (shutdownDone L st tr).1 = st := by
  unfold shutdownDone
  cases runAll L.doneListeners with
  | error e => rfl
  | ok u => cases u; rfl

theorem shutdownRest_fst (cfg : LifecycleConfig) (L : Listeners) (st : Ctrl)
    (tr1 : List Ev) : (shutdownRest cfg L st tr1).1 = st := by
  unfold shutdownRest
  cases hS : cfg.onShutdown with
  | none => exact shutdownDone_fst L st tr1
  | some r =>
    cases r with
    | error e => rfl
    | ok u => cases u; exact shutdownDone_fst L st _

theorem runShutdown_fst (cfg : LifecycleConfig) (L : Listeners)
    (closeRes : Except String Unit) (st : Ctrl) :
    (runShutdown cfg L closeRes st).1 = st := by
  unfold runShutdown
  cases hcs : st.healthCheckService with
  | false => exact shutdownRest_fst cfg L st []
  | true =>
    cases closeRes with
    | error e => rfl
    | ok u => cases u; exact shutdownRest_fst cfg L st _

theorem getHealthState_eq (cfg : LifecycleConfig) (st : Ctrl) (now : Nat)
    (custom : Fields) (b : Bool)
    (hping : pingResult cfg = Except.ok custom)
    (hch : computedHealthy cfg st = Except.ok b) :
    getHealthState cfg st now = Except.ok (jsSpread (baseFields st now b) custom) := by
  unfold getHealthState
  rw [hping, hch]

theorem getHealthState_shape (cfg : LifecycleConfig) (st : Ctrl) (now : Nat)
    (custom out : Fields)
    (hping : pingResult cfg = Except.ok custom)
    (hout : getHealthState cfg st now = Except.ok out) :
    ∃ b, computedHealthy cfg st = Except.ok b ∧
      out = jsSpread (baseFields st now b) custom := by
  cases hch : computedHealthy cfg st with
  | error e =>
    exfalso
    unfold getHealthState at hout
    rw [hping, hch] at hout
    simp at hout
  | ok b =>
    rw [getHealthState_eq cfg st now custom b hping hch] at hout
    injection hout with hout
    exact ⟨b, rfl, hout.symm⟩

/-! ### Claim C3: duplicate dependency names -/

/-- C3 counterexample: constructing a lifecycle from the duplicate dependency
list `["db", "db"]` does not fail with a `ConfigurationError` — the
construction succeeds, silently collapsing the duplicate to a single registry
entry.  This refutes the claim that construction fails on a duplicate. -/
theorem C3_counterexample :
    defineLifecycle { dependencies := some ["db", "db"] } =
      Except.ok { dependencyHealth := [("db", false)], healthCheckService := false } := rfl

/-- C3 (amended): constructing the lifecycle never fails; duplicate names are
silently collapsed by `Map.set`, leaving exactly one entry per distinct name,
each initially false, and for a duplicate-free sequence exactly one entry per
name in order. -/
theorem C3_silent_collapse (names : List String) :
    (defineLifecycle { dependencies := some names } =
       Except.ok { dependencyHealth := buildDeps (some names),
                   healthCheckService := false }) ∧
    (∀ p ∈ buildDeps (some names), p.2 = false) ∧
    ((buildDeps (some names)).map Prod.fst).Nodup ∧
    (∀ k, k ∈ (buildDeps (some names)).map Prod.fst ↔ k ∈ names) ∧
    (names.Nodup → buildDeps (some names) = names.map (fun n => (n, false))) := by
  refine ⟨rfl, buildDeps_false _, ?_, ?_, buildDeps_nodup_eq names⟩
  · exact (foldl_mapSet_keys names [] (by simp)).1
  · intro k
    have h := (foldl_mapSet_keys names [] (by simp)).2 k
    simpa [buildDeps] using h

/-- C3 witness: the amended statement at the concrete input `["db", "queue"]`. -/
theorem C3_silent_collapse_witness :
    (defineLifecycle { dependencies := some ["db", "queue"] } =
       Except.ok { dependencyHealth := buildDeps (some ["db", "queue"]),
                   healthCheckService := false }) ∧
    (∀ p ∈ buildDeps (some ["db", "queue"]), p.2 = false) ∧
    ((buildDeps (some ["db", "queue"])).map Prod.fst).Nodup ∧
    (∀ k, k ∈ (buildDeps (some ["db", "queue"])).map Prod.fst ↔ k ∈ ["db", "queue"]) ∧
    (["db", "queue"].Nodup →
       buildDeps (some ["db", "queue"]) = ["db", "queue"].map (fun n => (n, false))) :=
  C3_silent_collapse ["db", "queue"]

/-! ### Claim C1: reserved keys versus onPing fields -/

/-- C1 counterexample: with `onPing` returning a mapping that binds the
reserved key `healthy`, the snapshot's `healthy` field is the onPing-supplied
value (`false`), not the computed one — the same configuration without
`onPing` computes `healthy = true`.  This refutes the claim that
onPing-supplied values for reserved keys never appear in the result. -/
theorem C1_counterexample :
    (getHealthState { onPing := some (Except.ok [("healthy", Value.bool false)]) }
        stEmpty 5 =
      Except.ok [("healthy", Value.bool false), ("timestamp", Value.nat 5)]) ∧
    (getHealthState {} stEmpty 5 =
      Except.ok [("healthy", Value.bool true), ("timestamp", Value.nat 5)]) :=
  ⟨rfl, rfl⟩

/-- C1 (amended): the object spread in `getHealthState` merges the
onPing-supplied mapping last, so each reserved key (`healthy`, `timestamp`,
`dependencies`) carries the onPing-supplied value whenever the mapping binds
it, and the computed value only otherwise. -/
theorem C1_reserved_key_shadowing (cfg : LifecycleConfig) (st : Ctrl) (now : Nat)
    (custom out : Fields) (b : Bool)
    (hping : pingResult cfg = Except.ok custom)
    (hH : computedHealthy cfg st = Except.ok b)
    (hout : getHealthState cfg st now = Except.ok out) :
    lookupKV "healthy" out = some ((lookupKV "healthy" custom).getD (Value.bool b)) ∧
    lookupKV "timestamp" out = some ((lookupKV "timestamp" custom).getD (Value.nat now)) ∧
    lookupKV "dependencies" out =
      (if st.dependencyHealth.isEmpty then lookupKV "dependencies" custom
       else some ((lookupKV "dependencies" custom).getD
         (Value.obj (st.dependencyHealth.map fun p => (p.1, Value.bool p.2))))) := by
  have hcomp : getHealthState cfg st now =
      Except.ok (jsSpread (baseFields st now b) custom) := by
    unfold getHealthState
    rw [hping, hH]
  rw [hcomp] at hout
  injection hout with hout
  subst hout
  refine ⟨?_, ?_, ?_⟩
  · simp [lookupKV_jsSpread, lookupKV_baseFields_healthy]
  · simp [lookupKV_jsSpread, lookupKV_baseFields_timestamp]
  · by_cases hd : st.dependencyHealth.isEmpty
    · simp [lookupKV_jsSpread, lookupKV_baseFields_deps, hd]
    · simp [lookupKV_jsSpread, lookupKV_baseFields_deps, hd]

/-- C1 witness: the amended statement at a concrete configuration whose
`onPing` shadows `healthy`. -/
theorem C1_reserved_key_shadowing_witness :
    lookupKV "healthy" [("healthy", Value.bool false), ("timestamp", Value.nat 5)] =
      some ((lookupKV "healthy" [("healthy", Value.bool false)]).getD (Value.bool true)) :=
  (C1_reserved_key_shadowing
    { onPing := some (Except.ok [("healthy", Value.bool false)]) } stEmpty 5
    [("healthy", Value.bool false)]
    [("healthy", Value.bool false), ("timestamp", Value.nat 5)] true rfl rfl rfl).1

/-! ### Claim C6: isHealthy decides the healthy field -/

/-- C6 counterexample: with `isHealthy` configured to return `true` but
`onPing` returning a mapping that binds `healthy` to `false`, the snapshot's
`healthy` field is `false`, not the value returned by `isHealthy`.  This
refutes the claim that the `healthy` field always equals the `isHealthy`
result for every configuration in which `isHealthy` is configured. -/
theorem C6_counterexample :
    ({ isHealthy := some (Except.ok true),
       onPing := some (Except.ok [("healthy", Value.bool false)]) } :
        LifecycleConfig).isHealthy = some (Except.ok true) ∧
    getHealthState
        { isHealthy := some (Except.ok true),
          onPing := some (Except.ok [("healthy", Value.bool false)]) } stEmpty 0 =
      Except.ok [("healthy", Value.bool false), ("timestamp", Value.nat 0)] :=
  ⟨rfl, rfl⟩

/-- C6 (amended): when `isHealthy` is configured and the onPing-supplied
mapping does not bind the key `healthy`, the snapshot's `healthy` field equals
the boolean returned by `isHealthy`, regardless of the dependency flags. -/
theorem C6_isHealthy_decides (cfg : LifecycleConfig) (st : Ctrl) (now : Nat)
    (b : Bool) (custom : Fields)
    (hH : cfg.isHealthy = some (Except.ok b))
    (hping : pingResult cfg = Except.ok custom)
    (hno : lookupKV "healthy" custom = none) :
    getHealthState cfg st now = Except.ok (jsSpread (baseFields st now b) custom) ∧
    lookupKV "healthy" (jsSpread (baseFields st now b) custom) = some (Value.bool b) := by
  have hch : computedHealthy cfg st = Except.ok b := by
    unfold computedHealthy
    rw [hH]
  exact ⟨getHealthState_eq cfg st now custom b hping hch,
    by simp [lookupKV_jsSpread, lookupKV_baseFields_healthy, hno]⟩

/-- C6 witness: a configuration with a declared dependency that is never
marked ready and `isHealthy` returning `true` reports `healthy = true`. -/
theorem C6_isHealthy_decides_witness :
    getHealthState { isHealthy := some (Except.ok true), dependencies := some ["db"] }
        { dependencyHealth := [("db", false)], healthCheckService := false } 2 =
      Except.ok (jsSpread
        (baseFields { dependencyHealth := [("db", false)], healthCheckService := false }
          2 true) []) ∧
    lookupKV "healthy"
        (jsSpread
          (baseFields { dependencyHealth := [("db", false)], healthCheckService := false }
            2 true) []) =
      some (Value.bool true) :=
  C6_isHealthy_decides { isHealthy := some (Except.ok true), dependencies := some ["db"] }
    { dependencyHealth := [("db", false)], healthCheckService := false } 2 true [] rfl rfl rfl

/-! ### Claim C7: the dependencies field of the snapshot -/

/-- C7 counterexample: for a configuration with no declared dependencies but
an `onPing` that returns a mapping binding the key `dependencies`, the
snapshot does contain a `dependencies` field.  This refutes the claim that the
field is absent for every configuration with no declared dependencies. -/
theorem C7_counterexample :
    getHealthState { onPing := some (Except.ok [("dependencies", Value.str "x")]) }
        stEmpty 0 =
      Except.ok [("healthy", Value.bool true), ("timestamp", Value.nat 0),
                 ("dependencies", Value.str "x")] := rfl

/-- C7 (amended): provided the onPing-supplied mapping does not bind the key
`dependencies`: after a successful `init()` on a duplicate-free non-empty
declared list D, the snapshot's `dependencies` field maps every name of D to
true; a state with an empty registry yields no `dependencies` field; and a
configuration with no declared dependencies keeps its registry empty through
`init()`. -/
theorem C7_dependencies_field (cfg : LifecycleConfig) (L : Listeners) (now : Nat)
    (custom : Fields)
    (hping : pingResult cfg = Except.ok custom)
    (hdep : lookupKV "dependencies" custom = none) :
    (∀ D st' tr out, cfg.dependencies = some D → D ≠ [] → D.Nodup →
        runInit cfg L (initialCtrl cfg) = (st', tr, Except.ok ()) →
        getHealthState cfg st' now = Except.ok out →
        lookupKV "dependencies" out =
          some (Value.obj (D.map fun n => (n, Value.bool true)))) ∧
    (∀ st out, st.dependencyHealth = [] →
        getHealthState cfg st now = Except.ok out →
        lookupKV "dependencies" out = none) ∧
    (cfg.dependencies = none →
        (initialCtrl cfg).dependencyHealth = [] ∧
        ∀ st' tr r, runInit cfg L (initialCtrl cfg) = (st', tr, r) →
          st'.dependencyHealth = []) := by
  refine ⟨?_, ?_, ?_⟩
  · intro D st' tr out hD hne hnd hrun hout
    have hst' := runInit_ok_state cfg L (initialCtrl cfg) st' tr hrun
    have hdeps : st'.dependencyHealth = D.map (fun n => (n, true)) := by
      rw [hst']
      show (buildDeps cfg.dependencies).map (fun p => (p.1, true)) = _
      rw [hD, buildDeps_nodup_eq D hnd, List.map_map]
      rfl
    obtain ⟨b, hch, hout'⟩ := getHealthState_shape cfg st' now custom out hping hout
    subst hout'
    have hne' : st'.dependencyHealth.isEmpty = false := by
      rw [hdeps]
      cases D with
      | nil => exact absurd rfl hne
      | cons d rest => rfl
    rw [lookupKV_jsSpread, lookupKV_baseFields_deps, hne']
    simp [hdeps, hdep, List.map_map]
  · intro st out hempty hout
    obtain ⟨b, hch, hout'⟩ := getHealthState_shape cfg st now custom out hping hout
    subst hout'
    rw [lookupKV_jsSpread, lookupKV_baseFields_deps]
    simp [hempty, hdep]
  · intro hD
    have h0 : (initialCtrl cfg).dependencyHealth = [] := by
      show buildDeps cfg.dependencies = []
      rw [hD]
      rfl
    refine ⟨h0, ?_⟩
    intro st' tr r hrun
    have hst' : st' = (runInit cfg L (initialCtrl cfg)).1 := by rw [hrun]
    rcases runInit_state cfg L (initialCtrl cfg) with h | h
    · rw [hst', h, h0]
    · rw [hst', h]
      simp [h0]

/-- C7 witness: the amended statement at the concrete declared list
`["db", "queue"]` after a successful `init()`, and at a dependency-free
configuration. -/
theorem C7_dependencies_field_witness :
    lookupKV "dependencies"
        [("healthy", Value.bool true), ("timestamp", Value.nat 7),
         ("dependencies", Value.obj [("db", Value.bool true), ("queue", Value.bool true)])] =
      some (Value.obj [("db", Value.bool true), ("queue", Value.bool true)]) :=
  (C7_dependencies_field { dependencies := some ["db", "queue"] } {} 7 [] rfl rfl).1
    ["db", "queue"]
    { dependencyHealth := [("db", true), ("queue", true)], healthCheckService := true }
    [Ev.emitInit, Ev.depsMarked, Ev.serverStarted, Ev.handlersRegistered, Ev.emitReady]
    [("healthy", Value.bool true), ("timestamp", Value.nat 7),
     ("dependencies", Value.obj [("db", Value.bool true), ("queue", Value.bool true)])]
    rfl (by decide) (by decide) rfl rfl

/-! ### Claim C5: failing onInit -/

/-- C5: when `onInit` rejects with E (the `init` listeners and `failure`
listeners being well-behaved and the configured `onFailure` succeeding on E),
`init()` emits the `failure` event exactly once carrying E, invokes
`onFailure` exactly once with E, re-raises E to the caller, and leaves every
declared dependency flag false. -/
theorem C5_init_failure (cfg : LifecycleConfig) (L : Listeners) (E : String)
    (f : String → Except String Unit)
    (hOI : cfg.onInit = some (Except.error E))
    (hF : cfg.onFailure = some f)
    (hfE : f E = Except.ok ())
    (hIL : runAll L.initListeners = Except.ok ())
    (hFL : runAllWith E L.failureListeners = Except.ok ()) :
    runInit cfg L (initialCtrl cfg) =
      (initialCtrl cfg,
       [Ev.emitInit, Ev.onInitCalled, Ev.emitFailure E, Ev.onFailureCalled E],
       Except.error E) ∧
    ([Ev.emitInit, Ev.onInitCalled, Ev.emitFailure E,
      Ev.onFailureCalled E].count (Ev.emitFailure E) = 1) ∧
    ([Ev.emitInit, Ev.onInitCalled, Ev.emitFailure E,
      Ev.onFailureCalled E].count (Ev.onFailureCalled E) = 1) ∧
    (∀ p ∈ (initialCtrl cfg).dependencyHealth, p.2 = false) := by
  refine ⟨?_, ?_, ?_, buildDeps_false cfg.dependencies⟩
  · simp [runInit, initBody, catchFailure, onInitResult, hOI, hF, hfE, hIL, hFL]
  · simp [List.count_cons, List.count_nil]
  · simp [List.count_cons, List.count_nil]

/-- C5 witness: the statement at a configuration whose `onInit` rejects with
the message X and whose `onFailure` succeeds, with no listeners. -/
theorem C5_init_failure_witness :
    runInit { onInit := some (Except.error "X"), onFailure := some (fun _ => Except.ok ()) }
        {} (initialCtrl { onInit := some (Except.error "X"),
                          onFailure := some (fun _ => Except.ok ()) }) =
      (initialCtrl { onInit := some (Except.error "X"),
                     onFailure := some (fun _ => Except.ok ()) },
       [Ev.emitInit, Ev.onInitCalled, Ev.emitFailure "X", Ev.onFailureCalled "X"],
       Except.error "X") ∧
    ([Ev.emitInit, Ev.onInitCalled, Ev.emitFailure "X",
      Ev.onFailureCalled "X"].count (Ev.emitFailure "X") = 1) ∧
    ([Ev.emitInit, Ev.onInitCalled, Ev.emitFailure "X",
      Ev.onFailureCalled "X"].count (Ev.onFailureCalled "X") = 1) ∧
    (∀ p ∈ (initialCtrl { onInit := some (Except.error "X"),
                          onFailure := some (fun _ => Except.ok ()) }).dependencyHealth,
       p.2 = false) :=
  C5_init_failure
    { onInit := some (Except.error "X"), onFailure := some (fun _ => Except.ok ()) }
    {} "X" (fun _ => Except.ok ()) rfl rfl rfl rfl rfl

/-! ### Claim C10: a throwing ready listener fails init -/

/-- C10: when setup fully succeeds but a `ready` listener throws `ex` (the
`failure` listeners being well-behaved and the configured `onFailure`
succeeding on `ex`), `init()` treats this as an initialization failure: the
dependency flags are already all true and the health server already started,
yet the `failure` event is emitted with `ex`, `onFailure` is invoked with
`ex`, and `init()` rejects with `ex`. -/
theorem C10_ready_listener_failure (cfg : LifecycleConfig) (L : Listeners) (st : Ctrl)
    (ex : String) (f : String → Except String Unit)
    (hIL : runAll L.initListeners = Except.ok ())
    (hOI : onInitResult cfg = Except.ok ())
    (hRL : runAll L.readyListeners = Except.error ex)
    (hF : cfg.onFailure = some f)
    (hfx : f ex = Except.ok ())
    (hFL : runAllWith ex L.failureListeners = Except.ok ()) :
    ∀ st' tr r, runInit cfg L st = (st', tr, r) →
      r = Except.error ex ∧
      st'.healthCheckService = true ∧
      (∀ p ∈ st'.dependencyHealth, p.2 = true) ∧
      Ev.emitFailure ex ∈ tr ∧ Ev.onFailureCalled ex ∈ tr := by
  rcases hc : cfg.onInit with _ | r0
  · have hrun : runInit cfg L st =
        ({ dependencyHealth := st.dependencyHealth.map (fun p => (p.1, true)),
           healthCheckService := true },
         [Ev.emitInit, Ev.depsMarked, Ev.serverStarted, Ev.handlersRegistered,
          Ev.emitReady, Ev.emitFailure ex, Ev.onFailureCalled ex],
         Except.error ex) := by
      have hOI' : onInitResult cfg = Except.ok () := hOI
      simp [runInit, initBody, catchFailure, onInitResult, hc, hIL, hRL, hF, hfx, hFL]
    intro st' tr r h
    rw [hrun] at h
    injection h with h1 h23
    injection h23 with h2 h3
    subst h1
    subst h2
    subst h3
    refine ⟨rfl, rfl, ?_, by simp, by simp⟩
    intro p hp
    simp only [List.mem_map] at hp
    obtain ⟨q, _, rfl⟩ := hp
    rfl
  · have hr0 : r0 = Except.ok () := by
      have := hOI
      rw [onInitResult, hc] at this
      exact this
    subst hr0
    have hrun : runInit cfg L st =
        ({ dependencyHealth := st.dependencyHealth.map (fun p => (p.1, true)),
           healthCheckService := true },
         [Ev.emitInit, Ev.onInitCalled, Ev.depsMarked, Ev.serverStarted,
          Ev.handlersRegistered, Ev.emitReady, Ev.emitFailure ex, Ev.onFailureCalled ex],
         Except.error ex) := by
      simp [runInit, initBody, catchFailure, onInitResult, hc, hIL, hRL, hF, hfx, hFL]
    intro st' tr r h
    rw [hrun] at h
    injection h with h1 h23
    injection h23 with h2 h3
    subst h1
    subst h2
    subst h3
    refine ⟨rfl, rfl, ?_, by simp, by simp⟩
    intro p hp
    simp only [List.mem_map] at hp
    obtain ⟨q, _, rfl⟩ := hp
    rfl

/-- C10 witness: concrete run with a declared dependency, a succeeding
`onInit`, and a single throwing `ready` listener. -/
theorem C10_ready_listener_failure_witness :
    (Except.error "boom" : Except String Unit) = Except.error "boom" ∧
    ({ dependencyHealth := [("db", true)], healthCheckService := true } :
        Ctrl).healthCheckService = true ∧
    (∀ p ∈ ({ dependencyHealth := [("db", true)], healthCheckService := true } :
        Ctrl).dependencyHealth, p.2 = true) ∧
    Ev.emitFailure "boom" ∈
      [Ev.emitInit, Ev.onInitCalled, Ev.depsMarked, Ev.serverStarted,
       Ev.handlersRegistered, Ev.emitReady, Ev.emitFailure "boom",
       Ev.onFailureCalled "boom"] ∧
    Ev.onFailureCalled "boom" ∈
      [Ev.emitInit, Ev.onInitCalled, Ev.depsMarked, Ev.serverStarted,
       Ev.handlersRegistered, Ev.emitReady, Ev.emitFailure "boom",
       Ev.onFailureCalled "boom"] :=
  C10_ready_listener_failure
    { onInit := some (Except.ok ()), onFailure := some (fun _ => Except.ok ()),
      dependencies := some ["db"] }
    { readyListeners := [Except.error "boom"] }
    (initialCtrl { onInit := some (Except.ok ()),
                   onFailure := some (fun _ => Except.ok ()),
                   dependencies := some ["db"] })
    "boom" (fun _ => Except.ok ()) rfl rfl rfl rfl rfl rfl
    { dependencyHealth := [("db", true)], healthCheckService := true }
    [Ev.emitInit, Ev.onInitCalled, Ev.depsMarked, Ev.serverStarted,
     Ev.handlersRegistered, Ev.emitReady, Ev.emitFailure "boom",
     Ev.onFailureCalled "boom"]
    (Except.error "boom") rfl

/-! ### Claim C9: the health endpoint survives computation errors -/

/-- C9: when `getHealthState()` rejects, the request handler answers the
`/health` request with status 503, the error-shaped body, and a log entry;
moreover the handler is total — every request receives a 200, 503 or 404
response, so a health-computation failure never crashes the endpoint. -/
theorem C9_handler_catches_errors (cfg : LifecycleConfig) (st : Ctrl) (now : Nat)
    (e : String)
    (h : getHealthState cfg st now = Except.error e) :
    healthCheckCallback (getHealthState cfg st now) "/health" =
      ((503, [("healthy", Value.bool false),
              ("error", Value.str "Failed to get health state")]),
       [Ev.logError e]) ∧
    ∀ hr url, (healthCheckCallback hr url).1.1 = 200 ∨
              (healthCheckCallback hr url).1.1 = 503 ∨
              (healthCheckCallback hr url).1.1 = 404 := by
  constructor
  · rw [h]
    simp [healthCheckCallback]
  · intro hr url
    unfold healthCheckCallback
    by_cases hu : url = "/health"
    · cases hr with
      | ok state =>
        by_cases ht : jsTruthy (lookupKV "healthy" state)
        · simp [hu, ht]
        · simp [hu, ht]
      | error e2 => simp [hu]
    · simp [hu]

/-- C9 witness: a configuration whose `onPing` rejects; the handler answers
503 with the error body. -/
theorem C9_handler_catches_errors_witness :
    healthCheckCallback
        (getHealthState { onPing := some (Except.error "Ping failed") } stEmpty 0)
        "/health" =
      ((503, [("healthy", Value.bool false),
              ("error", Value.str "Failed to get health state")]),
       [Ev.logError "Ping failed"]) :=
  (C9_handler_catches_errors { onPing := some (Except.error "Ping failed") } stEmpty 0
    "Ping failed" rfl).1

/-! ### Claim C8: close completes before onShutdown -/

theorem eventBefore_of_not_mem (a b : Ev) (tr : List Ev) (h : b ∉ tr) :
    eventBefore a b tr := by
  intro n hn
  exact absurd (List.getElem?_mem hn) h

theorem eventBefore_third (a b x : Ev) (rest : List Ev)
    (hx : b ≠ x) (ha : b ≠ a) (hrest : b ∉ rest) :
    eventBefore a b (x :: a :: b :: rest) := by
  intro n hn
  match n with
  | 0 =>
    simp at hn
    exact absurd hn.symm hx
  | 1 =>
    simp at hn
    exact absurd hn.symm ha
  | 2 => exact ⟨1, by omega, rfl⟩
  | (k + 3) =>
    simp at hn
    exact absurd (List.getElem?_mem hn) hrest

/-- C8: in every shutdown run in which the health server was started and
`onShutdown` is configured, every occurrence of the `onShutdown` invocation in
the trace is preceded by the completion of the health-server close. -/
theorem C8_close_before_onShutdown (cfg : LifecycleConfig) (L : Listeners)
    (closeRes : Except String Unit) (st : Ctrl)
    (hcs : st.healthCheckService = true)
    (hos : cfg.onShutdown.isSome = true) :
    eventBefore Ev.closeFinished Ev.onShutdownCalled
      (runShutdown cfg L closeRes st).2.1 := by
  rcases hS : cfg.onShutdown with _ | r
  · rw [hS] at hos
    simp at hos
  · cases closeRes with
    | error e =>
      have hrun : runShutdown cfg L (Except.error e) st =
          (st, [Ev.closeStarted], Except.error e) := by
        simp [runShutdown, hcs]
      rw [hrun]
      exact eventBefore_of_not_mem _ _ _ (by simp)
    | ok u =>
      cases u
      have hrs : runShutdown cfg L (Except.ok ()) st =
          shutdownRest cfg L st [Ev.closeStarted, Ev.closeFinished] := by
        simp [runShutdown, hcs]
      rw [hrs]
      cases r with
      | error e =>
        have h2 : shutdownRest cfg L st [Ev.closeStarted, Ev.closeFinished] =
            (st, [Ev.closeStarted, Ev.closeFinished, Ev.onShutdownCalled],
             Except.error e) := by
          simp [shutdownRest, hS]
        rw [h2]
        exact eventBefore_third _ _ _ _ (by decide) (by decide) (by simp)
      | ok u =>
        cases u
        have h2 : shutdownRest cfg L st [Ev.closeStarted, Ev.closeFinished] =
            shutdownDone L st
              [Ev.closeStarted, Ev.closeFinished, Ev.onShutdownCalled,
               Ev.onShutdownFinished] := by
          simp [shutdownRest, hS]
        rw [h2]
        cases hDL : runAll L.doneListeners with
        | error e =>
          have h3 : shutdownDone L st
              [Ev.closeStarted, Ev.closeFinished, Ev.onShutdownCalled,
               Ev.onShutdownFinished] =
              (st, [Ev.closeStarted, Ev.closeFinished, Ev.onShutdownCalled,
                    Ev.onShutdownFinished, Ev.emitDone], Except.error e) := by
            simp [shutdownDone, hDL]
          rw [h3]
          exact eventBefore_third _ _ _ _ (by decide) (by decide) (by decide)
        | ok u =>
          cases u
          have h3 : shutdownDone L st
              [Ev.closeStarted, Ev.closeFinished, Ev.onShutdownCalled,
               Ev.onShutdownFinished] =
              (st, [Ev.closeStarted, Ev.closeFinished, Ev.onShutdownCalled,
                    Ev.onShutdownFinished, Ev.emitDone, Ev.processExit 0],
               Except.ok ()) := by
            simp [shutdownDone, hDL]
          rw [h3]
          exact eventBefore_third _ _ _ _ (by decide) (by decide) (by decide)

/-- C8 witness: the statement at a concrete started controller with a
configured `onShutdown`. -/
theorem C8_close_before_onShutdown_witness :
    eventBefore Ev.closeFinished Ev.onShutdownCalled
      (runShutdown { onShutdown := some (Except.ok ()) } {} (Except.ok ())
        stStarted).2.1 :=
  C8_close_before_onShutdown { onShutdown := some (Except.ok ()) } {} (Except.ok ())
    stStarted rfl rfl

/-! ### Claim C2: shutdown error handling -/

/-- C2 counterexample: with `onShutdown` rejecting, the call to `shutdown()`
propagates the error to its caller and never emits `done` — refuting the claim
that any error from the shutdown steps is caught inside `shutdown()` and that
`done` is still emitted. -/
theorem C2_counterexample :
    (runShutdown { onShutdown := some (Except.error "boom") } {} (Except.ok ())
        stStarted =
      (stStarted, [Ev.closeStarted, Ev.closeFinished, Ev.onShutdownCalled],
       Except.error "boom")) ∧
    Ev.emitDone ∉ [Ev.closeStarted, Ev.closeFinished, Ev.onShutdownCalled] :=
  ⟨rfl, by decide⟩

/-- C2 (amended): `shutdown()` contains no try/catch of its own.  When the
close and `onShutdown` steps succeed (and the `done` listeners are
well-behaved), it emits `done` exactly once and exits 0.  When a step raises,
the error propagates out of `shutdown()` and neither the `done` emission nor
the exit happens.  Only the signal-handler wrapper catches the error: the
signal path always reaches `process.exit(0)` and never a non-zero exit. -/
theorem C2_shutdown_errors (cfg : LifecycleConfig) (L : Listeners)
    (closeRes : Except String Unit) (st : Ctrl)
    (hDL : runAll L.doneListeners = Except.ok ()) :
    (shutdownStepsOk cfg closeRes st →
       (runShutdown cfg L closeRes st).2.2 = Except.ok () ∧
       (runShutdown cfg L closeRes st).2.1.count Ev.emitDone = 1 ∧
       (runShutdown cfg L closeRes st).2.1.count (Ev.processExit 0) = 1) ∧
    (∀ st' tr e, runShutdown cfg L closeRes st = (st', tr, Except.error e) →
       Ev.emitDone ∉ tr ∧ Ev.processExit 0 ∉ tr) ∧
    (∀ st' tr, runSignalHandler cfg L closeRes st = (st', tr) →
       Ev.processExit 0 ∈ tr ∧ ∀ c, Ev.processExit c ∈ tr → c = 0) := by
  rcases hS : cfg.onShutdown with _ | r
  · cases hcs : st.healthCheckService with
    | false =>
      have hrun : runShutdown cfg L closeRes st =
          (st, [Ev.emitDone, Ev.processExit 0], Except.ok ()) := by
        simp [runShutdown, hcs, shutdownRest, hS, shutdownDone, hDL]
      refine ⟨fun _ => ?_, ?_, ?_⟩
      · rw [hrun]
        refine ⟨rfl, ?_, ?_⟩ <;> simp [List.count_cons, List.count_nil]
      · intro st' tr e h
        rw [hrun] at h
        simp at h
      · intro st' tr h
        simp [runSignalHandler, hrun] at h
        obtain ⟨h1, h2⟩ := h
        subst h2
        refine ⟨by simp, ?_⟩
        intro c hc
        simp at hc
        exact hc
    | true =>
      cases closeRes with
      | error e0 =>
        have hrun : runShutdown cfg L (Except.error e0) st =
            (st, [Ev.closeStarted], Except.error e0) := by
          simp [runShutdown, hcs]
        refine ⟨fun hok => ?_, ?_, ?_⟩
        · have := hok.1 hcs
          simp at this
        · intro st' tr e h
          rw [hrun] at h
          simp at h
          obtain ⟨h1, h2, h3⟩ := h
          subst h2
          exact ⟨by decide, by decide⟩
        · intro st' tr h
          simp [runSignalHandler, hrun] at h
          obtain ⟨h1, h2⟩ := h
          subst h2
          refine ⟨by simp, ?_⟩
          intro c hc
          simp at hc
          exact hc
      | ok u =>
        cases u
        have hrun : runShutdown cfg L (Except.ok ()) st =
            (st, [Ev.closeStarted, Ev.closeFinished, Ev.emitDone, Ev.processExit 0],
             Except.ok ()) := by
          simp [runShutdown, hcs, shutdownRest, hS, shutdownDone, hDL]
        refine ⟨fun _ => ?_, ?_, ?_⟩
        · rw [hrun]
          refine ⟨rfl, ?_, ?_⟩ <;> simp [List.count_cons, List.count_nil]
        · intro st' tr e h
          rw [hrun] at h
          simp at h
        · intro st' tr h
          simp [runSignalHandler, hrun] at h
          obtain ⟨h1, h2⟩ := h
          subst h2
          refine ⟨by simp, ?_⟩
          intro c hc
          simp at hc
          exact hc
  · cases r with
    | ok u =>
      cases u
      cases hcs : st.healthCheckService with
      | false =>
        have hrun : runShutdown cfg L closeRes st =
            (st, [Ev.onShutdownCalled, Ev.onShutdownFinished, Ev.emitDone,
                  Ev.processExit 0], Except.ok ()) := by
          simp [runShutdown, hcs, shutdownRest, hS, shutdownDone, hDL]
        refine ⟨fun _ => ?_, ?_, ?_⟩
        · rw [hrun]
          refine ⟨rfl, ?_, ?_⟩ <;> simp [List.count_cons, List.count_nil]
        · intro st' tr e h
          rw [hrun] at h
          simp at h
        · intro st' tr h
          simp [runSignalHandler, hrun] at h
          obtain ⟨h1, h2⟩ := h
          subst h2
          refine ⟨by simp, ?_⟩
          intro c hc
          simp at hc
          exact hc
      | true =>
        cases closeRes with
        | error e0 =>
          have hrun : runShutdown cfg L (Except.error e0) st =
              (st, [Ev.closeStarted], Except.error e0) := by
            simp [runShutdown, hcs]
          refine ⟨fun hok => ?_, ?_, ?_⟩
          · have := hok.1 hcs
            simp at this
          · intro st' tr e h
            rw [hrun] at h
            simp at h
            obtain ⟨h1, h2, h3⟩ := h
            subst h2
            exact ⟨by decide, by decide⟩
          · intro st' tr h
            simp [runSignalHandler, hrun] at h
            obtain ⟨h1, h2⟩ := h
            subst h2
            refine ⟨by simp, ?_⟩
            intro c hc
            simp at hc
            exact hc
        | ok u =>
          cases u
          have hrun : runShutdown cfg L (Except.ok ()) st =
              (st, [Ev.closeStarted, Ev.closeFinished, Ev.onShutdownCalled,
                    Ev.onShutdownFinished, Ev.emitDone, Ev.processExit 0],
               Except.ok ()) := by
            simp [runShutdown, hcs, shutdownRest, hS, shutdownDone, hDL]
          refine ⟨fun _ => ?_, ?_, ?_⟩
          · rw [hrun]
            refine ⟨rfl, ?_, ?_⟩ <;> simp [List.count_cons, List.count_nil]
          · intro st' tr e h
            rw [hrun] at h
            simp at h
          · intro st' tr h
            simp [runSignalHandler, hrun] at h
            obtain ⟨h1, h2⟩ := h
            subst h2
            refine ⟨by simp, ?_⟩
            intro c hc
            simp at hc
            exact hc
    | error e1 =>
      cases hcs : st.healthCheckService with
      | false =>
        have hrun : runShutdown cfg L closeRes st =
            (st, [Ev.onShutdownCalled], Except.error e1) := by
          simp [runShutdown, hcs, shutdownRest, hS]
        refine ⟨fun hok => ?_, ?_, ?_⟩
        · have := hok.2 (Except.error e1) hS
          simp at this
        · intro st' tr e h
          rw [hrun] at h
          simp at h
          obtain ⟨h1, h2, h3⟩ := h
          subst h2
          exact ⟨by decide, by decide⟩
        · intro st' tr h
          simp [runSignalHandler, hrun] at h
          obtain ⟨h1, h2⟩ := h
          subst h2
          refine ⟨by simp, ?_⟩
          intro c hc
          simp at hc
          exact hc
      | true =>
        cases closeRes with
        | error e0 =>
          have hrun : runShutdown cfg L (Except.error e0) st =
              (st, [Ev.closeStarted], Except.error e0) := by
            simp [runShutdown, hcs]
          refine ⟨fun hok => ?_, ?_, ?_⟩
          · have := hok.1 hcs
            simp at this
          · intro st' tr e h
            rw [hrun] at h
            simp at h
            obtain ⟨h1, h2, h3⟩ := h
            subst h2
            exact ⟨by decide, by decide⟩
          · intro st' tr h
            simp [runSignalHandler, hrun] at h
            obtain ⟨h1, h2⟩ := h
            subst h2
            refine ⟨by simp, ?_⟩
            intro c hc
            simp at hc
            exact hc
        | ok u =>
          cases u
          have hrun : runShutdown cfg L (Except.ok ()) st =
              (st, [Ev.closeStarted, Ev.closeFinished, Ev.onShutdownCalled],
               Except.error e1) := by
            simp [runShutdown, hcs, shutdownRest, hS]
          refine ⟨fun hok => ?_, ?_, ?_⟩
          · have := hok.2 (Except.error e1) hS
            simp at this
          · intro st' tr e h
            rw [hrun] at h
            simp at h
            obtain ⟨h1, h2, h3⟩ := h
            subst h2
            exact ⟨by decide, by decide⟩
          · intro st' tr h
            simp [runSignalHandler, hrun] at h
            obtain ⟨h1, h2⟩ := h
            subst h2
            refine ⟨by simp, ?_⟩
            intro c hc
            simp at hc
            exact hc

/-- C2 witness: the success part of the amended statement at a concrete
configuration with a succeeding `onShutdown` and a started server. -/
theorem C2_shutdown_errors_witness :
    (runShutdown { onShutdown := some (Except.ok ()) } {} (Except.ok ())
        stStarted).2.2 = Except.ok () ∧
    (runShutdown { onShutdown := some (Except.ok ()) } {} (Except.ok ())
        stStarted).2.1.count Ev.emitDone = 1 ∧
    (runShutdown { onShutdown := some (Except.ok ()) } {} (Except.ok ())
        stStarted).2.1.count (Ev.processExit 0) = 1 :=
  (C2_shutdown_errors { onShutdown := some (Except.ok ()) } {} (Except.ok ())
      stStarted rfl).1
    ⟨fun _ => rfl, fun r hr => by injection hr with h; exact h.symm⟩

/-! ### Claim C4: double shutdown -/

/-- C4 counterexample: invoking `shutdown()` a second time (as when two
signals race and the second body starts before the first reaches its process
exit) runs the health-server close and `onShutdown` again: across the two
invocations each is performed twice.  This refutes the claim that the second
invocation is rejected or becomes a no-op. -/
theorem C4_counterexample :
    (((runShutdown { onShutdown := some (Except.ok ()) } {} (Except.ok ())
          stStarted).2.1 ++
      (runShutdown { onShutdown := some (Except.ok ()) } {} (Except.ok ())
          (runShutdown { onShutdown := some (Except.ok ()) } {} (Except.ok ())
            stStarted).1).2.1).count Ev.onShutdownCalled = 2) ∧
    (((runShutdown { onShutdown := some (Except.ok ()) } {} (Except.ok ())
          stStarted).2.1 ++
      (runShutdown { onShutdown := some (Except.ok ()) } {} (Except.ok ())
          (runShutdown { onShutdown := some (Except.ok ()) } {} (Except.ok ())
            stStarted).1).2.1).count Ev.closeStarted = 2) := by
  exact ⟨by decide, by decide⟩

/-- C4 (amended): `shutdown()` has no reentrancy guard and records nothing in
the controller state: it leaves the state unchanged, so a second invocation
repeats the whole sequence — close, `onShutdown`, `done`, exit — identically
to the first.  In practice only the process exit at the end of a completed
first run prevents a later invocation. -/
theorem C4_no_reentrancy_guard (cfg : LifecycleConfig) (L : Listeners)
    (closeRes : Except String Unit) (st : Ctrl) :
    (runShutdown cfg L closeRes st).1 = st ∧
    runShutdown cfg L closeRes ((runShutdown cfg L closeRes st).1) =
      runShutdown cfg L closeRes st := by
  refine ⟨runShutdown_fst cfg L closeRes st, ?_⟩
  rw [runShutdown_fst]

end Service
